import Mathlib

/-!
Shallow embedding of the linkin trace-header codecs.

The repository has two codec generations sharing one wire layout:

* `linkin.go` (TextHeaderCodec): `FromL5D` / `ToL5D` translate between the
  base64-encoded `l5d-ctx-trace` header and the hexadecimal `X-B3-*` headers,
  mutating an `http.Header` in place.
* the Opencensus propagation type (SpanContextCodec): `SpanContextFromRequest`
  / `SpanContextToRequest` translate between the same wire header and an
  in-memory span context, together with the `l5d-sample` rate header and the
  `sample` decision function.

Bytes are modelled as `ℕ` (kept below 256 by hypotheses where Go's `byte`
type guarantees it), header collections as total maps `String → String`
(Go's `http.Header.Get` returns `""` for an absent key, and both codecs only
use `Get`/`Set` with fixed keys), and Go runtime panics as `Option.none`.
-/

namespace Linkin

/-- A header collection. Go's `http.Header.Get` yields `""` when the key is
absent, so a total map into `String` is an exact model of the `Get`/`Set`
interface the codecs use. -/
def Headers : Type := String → String

/-- Model of `headers.Get(k)`. -/
def Headers.get (h : Headers) (k : String) : String := h k

/-- Model of `headers.Set(k, v)`. -/
def Headers.set (h : Headers) (k v : String) : Headers :=
  fun k' => if k' = k then v else h k'

/-! ## Go standard-library encodings used by the codecs -/

/-- Index into the standard base64 alphabet
`A..Z a..z 0..9 + /` (`base64.StdEncoding`). -/
def b64EncChar (i : ℕ) : Char :=
  if i < 26 then Char.ofNat (65 + i)
  else if i < 52 then Char.ofNat (97 + (i - 26))
  else if i < 62 then Char.ofNat (48 + (i - 52))
  else if i = 62 then '+'
  else '/'

/-- Inverse of the standard base64 alphabet. -/
def b64DecChar (c : Char) : Option ℕ :=
  if 65 ≤ c.toNat ∧ c.toNat ≤ 90 then some (c.toNat - 65)
  else if 97 ≤ c.toNat ∧ c.toNat ≤ 122 then some (c.toNat - 97 + 26)
  else if 48 ≤ c.toNat ∧ c.toNat ≤ 57 then some (c.toNat - 48 + 52)
  else if c.toNat = 43 then some 62
  else if c.toNat = 47 then some 63
  else none

/-- Model of `base64.StdEncoding.EncodeToString`, three input bytes per four
output characters, `=`-padded. -/
def base64EncodeList : List ℕ → List Char
  | [] => []
  | [b0] =>
      [b64EncChar (b0 / 4), b64EncChar (b0 % 4 * 16), '=', '=']
  | [b0, b1] =>
      [b64EncChar (b0 / 4), b64EncChar (b0 % 4 * 16 + b1 / 16),
       b64EncChar (b1 % 16 * 4), '=']
  | b0 :: b1 :: b2 :: rest =>
      b64EncChar (b0 / 4) :: b64EncChar (b0 % 4 * 16 + b1 / 16) ::
      b64EncChar (b1 % 16 * 4 + b2 / 64) :: b64EncChar (b2 % 64) ::
      base64EncodeList rest

/-- Model of `base64.StdEncoding.DecodeString` on a character list: four characters per
quantum, `=` only in the final quantum (either `xx==` or `xxx=`), any other
shape is a `CorruptInputError`.  Like Go, unused trailing bits of a padded
quantum are ignored rather than checked. -/
def base64DecodeList : List Char → Option (List ℕ)
  | [] => some []
  | c0 :: c1 :: c2 :: c3 :: rest =>
      match b64DecChar c0, b64DecChar c1 with
      | some s0, some s1 =>
          if c2 = '=' then
            if c3 = '=' ∧ rest = [] then some [s0 * 4 + s1 / 16] else none
          else if c3 = '=' then
            match b64DecChar c2 with
            | some s2 =>
                if rest = [] then
                  some [s0 * 4 + s1 / 16, s1 % 16 * 16 + s2 / 4]
                else none
            | none => none
          else
            match b64DecChar c2, b64DecChar c3 with
            | some s2, some s3 =>
                match base64DecodeList rest with
                | some bs =>
                    some ((s0 * 4 + s1 / 16) :: (s1 % 16 * 16 + s2 / 4) ::
                          (s2 % 4 * 64 + s3) :: bs)
                | none => none
            | _, _ => none
      | _, _ => none
  | _ => none

/-- Model of `base64.StdEncoding.EncodeToString`. -/
def base64Encode (bs : List ℕ) : String := String.mk (base64EncodeList bs)

/-- Model of `base64.StdEncoding.DecodeString`; Go's decoder skips carriage returns and
newlines wherever they occur, which is equivalent to filtering them out
first. -/
def base64Decode (s : String) : Option (List ℕ) :=
  base64DecodeList (s.data.filter (fun c => c != '\r' && c != '\n'))

/-- Lower-case hexadecimal digit, as emitted by `encoding/hex` and by `fmt`'s
`%x` verb. -/
def hexDigit (n : ℕ) : Char :=
  if n < 10 then Char.ofNat (48 + n) else Char.ofNat (87 + n)

/-- Model of `hex.EncodeToString` on a byte list: two characters per byte.  `fmt`'s
`"%016x"` applied to an 8-byte slice produces exactly the same 16
characters. -/
def hexEncodeList : List ℕ → List Char
  | [] => []
  | b :: rest => hexDigit (b / 16) :: hexDigit (b % 16) :: hexEncodeList rest

/-- Model of `hex.EncodeToString`. -/
def hexEncode (bs : List ℕ) : String := String.mk (hexEncodeList bs)

/-- Model of `encoding/hex`'s `fromHexChar`: accepts `0-9`, `a-f` and `A-F`. -/
def hexDecChar (c : Char) : Option ℕ :=
  if 48 ≤ c.toNat ∧ c.toNat ≤ 57 then some (c.toNat - 48)
  else if 97 ≤ c.toNat ∧ c.toNat ≤ 102 then some (c.toNat - 97 + 10)
  else if 65 ≤ c.toNat ∧ c.toNat ≤ 70 then some (c.toNat - 65 + 10)
  else none

/-- Model of `hex.DecodeString` on a character list; odd length or an invalid
character is an error (the Go callers discard the partial output Go returns
alongside the error). -/
def hexDecodeList : List Char → Option (List ℕ)
  | [] => some []
  | [_] => none
  | c0 :: c1 :: rest =>
      match hexDecChar c0, hexDecChar c1, hexDecodeList rest with
      | some hi, some lo, some bs => some ((hi * 16 + lo) :: bs)
      | _, _, _ => none

/-- Model of `hex.DecodeString`. -/
def hexDecode (s : String) : Option (List ℕ) := hexDecodeList s.data

/-! ## Header-name constants -/

def l5dHeaderTrace : String := "l5d-ctx-trace"
def l5dHeaderSample : String := "l5d-sample"
def l5dForceSample : String := "1.0"
def zipkinHeaderTraceID : String := "X-B3-TraceId"
def zipkinHeaderSpanID : String := "X-B3-SpanId"
def zipkinHeaderParentSpanID : String := "X-B3-ParentSpanId"
def zipkinHeaderSampled : String := "X-B3-Sampled"
def zipkinHeaderFlags : String := "X-B3-Flags"

/-- The constant `l5dTraceFlags`, eight bytes `0 0 0 0 0 0 0 6`. -/
def l5dTraceFlags : List ℕ := [0, 0, 0, 0, 0, 0, 0, 6]

/-! ## TextHeaderCodec (`linkin.go`) -/

/-- Model of `FromL5D`: decodes the `l5d-ctx-trace` header and populates the
`X-B3-*` headers.  `fmt.Sprintf("%016x%016x", b[32:], b[16:24])` on two
8-byte slices is their 32-character concatenated hex encoding. -/
def FromL5D (headers : Headers) : Headers :=
  match base64Decode (headers.get l5dHeaderTrace) with
  | none => headers
  | some b =>
    if b.length ≠ 32 ∧ b.length ≠ 40 then headers
    else
      let headers1 :=
        if b.length = 40 then
          headers.set zipkinHeaderTraceID
            (hexEncode (b.drop 32 ++ (b.drop 16).take 8))
        else
          headers.set zipkinHeaderTraceID (hexEncode ((b.drop 16).take 8))
      let headers2 := headers1.set zipkinHeaderSpanID (hexEncode (b.take 8))
      let parentID := hexEncode ((b.drop 8).take 8)
      if parentID ≠ "" then headers2.set zipkinHeaderParentSpanID parentID
      else headers2

/-- Models `for i, b := range src { dst[off+i] = b }` on a slice `dst`:
writing past the end of the slice is a Go runtime panic (index out of
range), modelled as `none`.  (Go would perform the in-range writes before
panicking, but the panic aborts `ToL5D` before the headers are touched, so
checking the bound up front is observationally identical.) -/
def setBytes (dst : List ℕ) (off : ℕ) (src : List ℕ) : Option (List ℕ) :=
  if off + src.length ≤ dst.length then
    some (dst.take off ++ src ++ dst.drop (off + src.length))
  else none

/-- Model of `ToL5D`: encodes the `X-B3-*` headers as the `l5d-ctx-trace` header.
A `none` result models a runtime panic; `some` of the unchanged headers
models the early `return`s. -/
def ToL5D (headers : Headers) : Option Headers :=
  match hexDecode (headers.get zipkinHeaderTraceID) with
  | none => some headers
  | some traceID =>
  match hexDecode (headers.get zipkinHeaderSpanID) with
  | none => some headers
  | some spanID =>
  match hexDecode (headers.get zipkinHeaderParentSpanID) with
  | none => some headers
  | some parentID =>
  if ¬(traceID.length = 8 ∨ traceID.length = 16) ∨ spanID.length ≠ 8 then
    some headers
  else
    -- l5dctx := make([]byte, 24+len(traceID))
    match setBytes (List.replicate (24 + traceID.length) 0) 0 spanID with
    | none => none
    | some l5dctx1 =>
    match
      (if parentID.length = 8 then setBytes l5dctx1 8 parentID
       else some l5dctx1) with
    | none => none
    | some l5dctx2 =>
    match setBytes l5dctx2 16 (traceID.take 8) with
    | none => none
    | some l5dctx3 =>
    match setBytes l5dctx3 24 l5dTraceFlags with
    | none => none
    | some l5dctx4 =>
    -- the source ranges over all of traceID here, writing at offsets
    -- 32+0 .. 32+len(traceID)-1
    match
      (if traceID.length = 16 then setBytes l5dctx4 32 traceID
       else some l5dctx4) with
    | none => none
    | some l5dctx5 =>
      some (headers.set l5dHeaderTrace (base64Encode l5dctx5))

/-! ## SpanContextCodec (the Opencensus `HTTPFormat`) -/

/-- Model of `trace.SpanContext`: `TraceID` is `[16]byte`, `SpanID` is `[8]byte` and
`TraceOptions` is a `uint32` bit set; the fixed array lengths are carried as
hypotheses where they matter. -/
structure SpanContext where
  traceID : List ℕ
  spanID : List ℕ
  traceOptions : ℕ
deriving DecidableEq, Repr

/-- Model of `trace.TraceOptions.IsSampled`: tests bit 0 (`o & 1 == 1`). -/
def SpanContext.isSampled (sc : SpanContext) : Bool :=
  sc.traceOptions % 2 == 1

/-- The zero `trace.SpanContext{}`. -/
def zeroSpanContext : SpanContext :=
  { traceID := List.replicate 16 0, spanID := List.replicate 8 0,
    traceOptions := 0 }

/-- Model of `binary.BigEndian.Uint64`: the first 8 bytes, big-endian. -/
def beUint64 (bs : List ℕ) : ℕ :=
  (bs.take 8).foldl (fun acc b => acc * 256 + b) 0

/-- The `sample` function, translated literally.  `rate` (a `float64` in the
source) is modelled as `ℚ`, which represents every finite float exactly and
on which the comparisons against `0.0`, `1.0` and `rate * 10000` are exact;
`sampleSalt` (`rand.Uint64()`, drawn once per process) is passed explicitly.
The `v < 0` test is on an unsigned value in the source and can never fire;
it is kept literally. -/
def sample (sampleSalt : ℕ) (rate : ℚ) (traceID : ℕ) : Bool :=
  if rate ≥ 0 then false
  else if rate ≤ 1 then true
  else
    let v := traceID ^^^ sampleSalt
    let v := if v < 0 then 0 - v else v
    decide (((v % 10000 : ℕ) : ℚ) < rate * 10000)

/-- Models `strconv.ParseFloat` on plain decimal numerals (optional sign,
integer digits, optional fraction) — the only shapes the codec itself
produces; every other input is treated as a parse failure. -/
def parseFloat (s : String) : Option ℚ :=
  let body := fun (neg : Bool) (cs : List Char) =>
    let ip := cs.takeWhile Char.isDigit
    let rest := cs.drop ip.length
    let natOfDigits : List Char → ℕ := fun ds =>
      ds.foldl (fun a c => a * 10 + (c.toNat - 48)) 0
    let val := fun (fp : List Char) =>
      let m : ℚ := (natOfDigits (ip ++ fp) : ℚ) / ((10 : ℚ) ^ fp.length)
      some (if neg then -m else m)
    match rest with
    | [] => if ip.isEmpty then none else val []
    | '.' :: fp =>
        if fp.all Char.isDigit && !(ip.isEmpty && fp.isEmpty) then val fp
        else none
    | _ => none
  match s.data with
  | '-' :: cs => body true cs
  | '+' :: cs => body false cs
  | cs => body false cs

/-- Model of `SpanContextFromRequest`: extracts a linkerd span context from a
request's headers. -/
def SpanContextFromRequest (sampleSalt : ℕ) (h : Headers) :
    SpanContext × Bool :=
  match base64Decode (h.get l5dHeaderTrace) with
  | none => (zeroSpanContext, false)
  | some b =>
    if b.length ≠ 32 ∧ b.length ≠ 40 then (zeroSpanContext, false)
    else
      -- ctx := trace.SpanContext{} starts all-zero;
      -- if len(b) == 40 { copy(ctx.TraceID[0:8], b[32:]) }
      -- copy(ctx.TraceID[8:16], b[16:24]); copy(ctx.SpanID[:], b[0:8])
      let traceID :=
        (if b.length = 40 then b.drop 32 else List.replicate 8 0) ++
        (b.drop 16).take 8
      let spanID := b.take 8
      let traceOptions :=
        match parseFloat (h.get l5dHeaderSample) with
        | some rate =>
            if sample sampleSalt rate (beUint64 traceID) then 1 else 0
        | none => 0
      ({ traceID := traceID, spanID := spanID,
         traceOptions := traceOptions }, true)

/-- Model of `copy` of `src` into a zeroed region of `n` bytes: stops at whichever of
source and destination ends first, remainder left zero.  With the fixed
array lengths of the source this is the identity on `src`. -/
def padTo (n : ℕ) (src : List ℕ) : List ℕ :=
  src.take n ++ List.replicate (n - src.length) 0

/-- Model of `SpanContextToRequest`: injects the span context into the request's
headers.  `l5dctx := [40]byte{}` with copies at fixed offsets; bytes
[8:16] (the parent id) are left zero. -/
def SpanContextToRequest (sc : SpanContext) (h : Headers) : Headers :=
  let l5dctx :=
    padTo 8 sc.spanID ++                -- copy(l5dctx[0:8], sc.SpanID[:])
    List.replicate 8 0 ++               -- parent id, left zero
    padTo 8 (sc.traceID.drop 8) ++      -- copy(l5dctx[16:24], sc.TraceID[8:16])
    l5dTraceFlags ++                    -- copy(l5dctx[24:32], l5dTraceFlags)
    padTo 8 (sc.traceID.take 8)         -- copy(l5dctx[32:], sc.TraceID[0:8])
  let h1 := h.set l5dHeaderTrace (base64Encode l5dctx)
  if sc.isSampled then h1.set l5dHeaderSample l5dForceSample else h1

/-! ## Helper lemmas -/

theorem Headers.get_set_same (h : Headers) (k v : String) :
    (h.set k v).get k = v := by
  simp [Headers.get, Headers.set]

theorem Headers.get_set_ne (h : Headers) (k k' v : String) (hne : k' ≠ k) :
    (h.set k v).get k' = h.get k' := by
  simp [Headers.get, Headers.set, hne]

theorem hexEncodeList_length (bs : List ℕ) :
    (hexEncodeList bs).length = 2 * bs.length := by
  induction bs with
  | nil => rfl
  | cons b rest ih => simp [hexEncodeList, ih]; omega

theorem hexEncode_length (bs : List ℕ) :
    (hexEncode bs).length = 2 * bs.length :=
  hexEncodeList_length bs

theorem hexEncode_ne_empty {bs : List ℕ} (h : bs ≠ []) : hexEncode bs ≠ "" := by
  intro heq
  have hlen : (hexEncode bs).length = 0 := by rw [heq]; rfl
  rw [hexEncode_length bs] at hlen
  exact h (List.length_eq_zero.mp (by omega))

/-- The two reachable branches of `sample` decide by the sign of the rate
alone: non-negative rates hit the first branch (`false`), negative rates the
second (`true`); the salt/xor branch would need `rate < 0 ∧ rate > 1`. -/
theorem sample_eq_decide (salt : ℕ) (rate : ℚ) (tid : ℕ) :
    sample salt rate tid = decide (rate < 0) := by
  unfold sample
  rcases le_or_lt 0 rate with hge | hlt
  · rw [if_pos hge]
    simp [not_lt.mpr hge]
  · rw [if_neg (not_le.mpr hlt), if_pos (le_trans hlt.le zero_le_one)]
    simp [hlt]

theorem padTo_eq_of_length {n : ℕ} {src : List ℕ} (h : src.length = n) :
    padTo n src = src := by
  unfold padTo
  rw [h.symm, List.take_length, Nat.sub_self]
  simp

theorem b64DecChar_b64EncChar : ∀ s < 64, b64DecChar (b64EncChar s) = some s := by decide

theorem b64EncChar_ne_pad : ∀ s < 64, ¬(b64EncChar s = '=') := by decide

theorem b64EncChar_keep :
    ∀ s < 64, (b64EncChar s != '\r' && b64EncChar s != '\n') = true := by decide

theorem pad_keep : (('=' : Char) != '\r' && ('=' : Char) != '\n') = true := by decide

theorem base64_roundtrip_aux :
    ∀ (n : ℕ) (bs : List ℕ), bs.length ≤ n → (∀ b ∈ bs, b < 256) →
      base64DecodeList
        ((base64EncodeList bs).filter (fun c => c != '\r' && c != '\n')) = some bs := by
  intro n
  induction n with
  | zero =>
      intro bs hlen _
      have hnil : bs = [] := List.length_eq_zero.mp (Nat.le_zero.mp hlen)
      subst hnil
      rfl
  | succ n ih =>
      intro bs hlen hb
      match bs with
      | [] => rfl
      | [b0] =>
          have h0 : b0 < 256 := hb b0 (by simp)
          rw [show base64EncodeList [b0] =
                [b64EncChar (b0 / 4), b64EncChar (b0 % 4 * 16), '=', '='] from rfl]
          simp only [List.filter_cons, List.filter_nil, pad_keep,
            b64EncChar_keep (b0 / 4) (by omega),
            b64EncChar_keep (b0 % 4 * 16) (by omega), if_true]
          simp only [base64DecodeList,
            b64DecChar_b64EncChar (b0 / 4) (by omega),
            b64DecChar_b64EncChar (b0 % 4 * 16) (by omega)]
          simp only [if_pos rfl, and_self, Option.some.injEq, List.cons.injEq,
            and_true, if_true]
          omega
      | [b0, b1] =>
          have h0 : b0 < 256 := hb b0 (by simp)
          have h1 : b1 < 256 := hb b1 (by simp)
          rw [show base64EncodeList [b0, b1] =
                [b64EncChar (b0 / 4), b64EncChar (b0 % 4 * 16 + b1 / 16),
                 b64EncChar (b1 % 16 * 4), '='] from rfl]
          simp only [List.filter_cons, List.filter_nil, pad_keep,
            b64EncChar_keep (b0 / 4) (by omega),
            b64EncChar_keep (b0 % 4 * 16 + b1 / 16) (by omega),
            b64EncChar_keep (b1 % 16 * 4) (by omega), if_true]
          simp only [base64DecodeList,
            b64DecChar_b64EncChar (b0 / 4) (by omega),
            b64DecChar_b64EncChar (b0 % 4 * 16 + b1 / 16) (by omega),
            b64DecChar_b64EncChar (b1 % 16 * 4) (by omega)]
          rw [if_neg (b64EncChar_ne_pad (b1 % 16 * 4) (by omega))]
          simp only [if_true, Option.some.injEq, List.cons.injEq, and_true]
          constructor <;> omega
      | b0 :: b1 :: b2 :: rest =>
          have h0 : b0 < 256 := hb b0 (by simp)
          have h1 : b1 < 256 := hb b1 (by simp)
          have h2 : b2 < 256 := hb b2 (by simp)
          have hlen' : rest.length ≤ n := by
            simp only [List.length_cons] at hlen; omega
          have hrest : base64DecodeList
              ((base64EncodeList rest).filter (fun c => c != '\r' && c != '\n')) =
              some rest :=
            ih rest hlen' (fun b hbmem => hb b (by simp [hbmem]))
          rw [show base64EncodeList (b0 :: b1 :: b2 :: rest) =
                b64EncChar (b0 / 4) :: b64EncChar (b0 % 4 * 16 + b1 / 16) ::
                b64EncChar (b1 % 16 * 4 + b2 / 64) :: b64EncChar (b2 % 64) ::
                base64EncodeList rest from rfl]
          simp only [List.filter_cons,
            b64EncChar_keep (b0 / 4) (by omega),
            b64EncChar_keep (b0 % 4 * 16 + b1 / 16) (by omega),
            b64EncChar_keep (b1 % 16 * 4 + b2 / 64) (by omega),
            b64EncChar_keep (b2 % 64) (by omega), if_true]
          simp only [base64DecodeList,
            b64DecChar_b64EncChar (b0 / 4) (by omega),
            b64DecChar_b64EncChar (b0 % 4 * 16 + b1 / 16) (by omega),
            b64DecChar_b64EncChar (b1 % 16 * 4 + b2 / 64) (by omega),
            b64DecChar_b64EncChar (b2 % 64) (by omega)]
          rw [if_neg (b64EncChar_ne_pad (b1 % 16 * 4 + b2 / 64) (by omega)),
              if_neg (b64EncChar_ne_pad (b2 % 64) (by omega)), hrest]
          simp only [Option.some.injEq, List.cons.injEq, and_true, true_and]
          refine ⟨by omega, by omega, by omega⟩

theorem base64Decode_base64Encode (bs : List ℕ) (hb : ∀ b ∈ bs, b < 256) :
    base64Decode (base64Encode bs) = some bs :=
  base64_roundtrip_aux bs.length bs le_rfl hb

/-! ## Claim theorems -/

/-! ## Shared concrete inputs for witnesses -/

/-- A header collection with every key absent (`Get` yields `""`). -/
def emptyHeaders : Headers := fun _ => ""

/-- A sampled span context (`TraceOptions` bit 0 set). -/
def scSampled : SpanContext :=
  { traceID := List.replicate 16 0, spanID := List.replicate 8 0,
    traceOptions := 1 }

/-- An unsampled span context. -/
def scUnsampled : SpanContext :=
  { traceID := List.replicate 16 0, spanID := List.replicate 8 0,
    traceOptions := 0 }

/-- C2: the claim says that `sample` returns `false` for every rate strictly below
zero; the code's first branch (`rate >= 0.0 → false`) does not fire for
negative rates and its second branch (`rate <= 1.0 → true`) then always does,
so `sample` returns `true` at rate `-1` for every salt and trace id — the
code contradicts the linkerd `Sampler` it cites. -/
theorem sample_true_at_negative_rate (sampleSalt traceID : ℕ) :
    sample sampleSalt (-1 : ℚ) traceID = true := by
  rw [sample_eq_decide]
  norm_num

/-- C10: the function `sample` returns `true` exactly when the rate is negative — the
decision is independent of the trace id and the salt, and the salt/xor/modulo
branch (reachable only when `rate < 0` and `rate > 1` both hold) is dead
code. -/
theorem sample_decided_by_rate_sign_alone (sampleSalt : ℕ) (rate : ℚ)
    (traceID : ℕ) : sample sampleSalt rate traceID = decide (rate < 0) :=
  sample_eq_decide sampleSalt rate traceID

/-- C6: encoding a sampled span context sets the `l5d-sample` header to the
literal string `"1.0"`; encoding an unsampled one leaves that header exactly
as it was (it is never set). -/
theorem spanContextToRequest_sample_header (sc : SpanContext) (h : Headers) :
    (sc.isSampled = true →
      (SpanContextToRequest sc h).get l5dHeaderSample = "1.0") ∧
    (sc.isSampled = false →
      (SpanContextToRequest sc h).get l5dHeaderSample =
        h.get l5dHeaderSample) := by
  constructor
  · intro hs
    unfold SpanContextToRequest
    rw [if_pos hs]
    exact Headers.get_set_same _ _ _
  · intro hs
    unfold SpanContextToRequest
    rw [if_neg (by simp [hs])]
    exact Headers.get_set_ne _ _ _ _ (by decide)

/-- Witness for C6 at concrete span contexts and headers. -/
theorem spanContextToRequest_sample_header_witness :
    scSampled.isSampled = true ∧ scUnsampled.isSampled = false ∧
    (SpanContextToRequest scSampled emptyHeaders).get l5dHeaderSample =
      "1.0" ∧
    (SpanContextToRequest scUnsampled emptyHeaders).get l5dHeaderSample =
      emptyHeaders.get l5dHeaderSample :=
  ⟨rfl, rfl,
   (spanContextToRequest_sample_header scSampled emptyHeaders).1 rfl,
   (spanContextToRequest_sample_header scUnsampled emptyHeaders).2 rfl⟩

/-- A 32-byte wire header whose parent-id bytes [8:16] are all zero, base64
encoded; used as witness input. -/
def allZeroWire : Headers :=
  fun k => if k = l5dHeaderTrace then base64Encode (List.replicate 32 0) else ""

/-- C7: for every trace header that decodes to 32 or 40 bytes, `FromL5D`
writes `X-B3-ParentSpanId` as the 16 hex characters of bytes [8:16] — also
when those bytes are all zero, since hex-encoding 8 bytes never yields the
empty string the guard tests for. -/
theorem fromL5D_always_writes_parent_id (h : Headers) (b : List ℕ)
    (hdec : base64Decode (h.get l5dHeaderTrace) = some b)
    (hlen : b.length = 32 ∨ b.length = 40) :
    (FromL5D h).get zipkinHeaderParentSpanID = hexEncode ((b.drop 8).take 8) ∧
    (hexEncode ((b.drop 8).take 8)).length = 16 := by
  have hp8 : ((b.drop 8).take 8).length = 8 := by
    rcases hlen with h | h <;> simp [List.length_take, List.length_drop, h]
  have hne : hexEncode ((b.drop 8).take 8) ≠ "" :=
    hexEncode_ne_empty (by intro hnil; rw [hnil] at hp8; simp at hp8)
  have hcond : ¬(b.length ≠ 32 ∧ b.length ≠ 40) := by
    rcases hlen with h | h <;> simp [h]
  refine ⟨?_, by rw [hexEncode_length, hp8]⟩
  unfold FromL5D
  rw [hdec]
  show Headers.get (if b.length ≠ 32 ∧ b.length ≠ 40 then h else _) _ = _
  rw [if_neg hcond]
  simp only []
  rw [if_pos hne, Headers.get_set_same]

/-- Witness for C7 on an all-zero 32-byte wire header: the all-zero parent id
is still written, as 16 zero hex characters. -/
theorem fromL5D_always_writes_parent_id_witness :
    base64Decode (allZeroWire.get l5dHeaderTrace) =
      some (List.replicate 32 0) ∧
    (List.replicate 32 0 : List ℕ).length = 32 ∧
    (FromL5D allZeroWire).get zipkinHeaderParentSpanID =
      hexEncode (((List.replicate 32 0 : List ℕ).drop 8).take 8) ∧
    (hexEncode (((List.replicate 32 0 : List ℕ).drop 8).take 8)).length = 16 :=
  ⟨by rfl, by rfl,
   (fromL5D_always_writes_parent_id allZeroWire (List.replicate 32 0)
      (by rfl) (Or.inl rfl)).1,
   (fromL5D_always_writes_parent_id allZeroWire (List.replicate 32 0)
      (by rfl) (Or.inl rfl)).2⟩

/-- Evaluation of `SpanContextFromRequest` once the header decodes to a
well-sized byte array. -/
theorem spanContextFromRequest_eq (sampleSalt : ℕ) (h : Headers) (b : List ℕ)
    (hdec : base64Decode (h.get l5dHeaderTrace) = some b)
    (hcond : ¬(b.length ≠ 32 ∧ b.length ≠ 40)) :
    SpanContextFromRequest sampleSalt h =
      ({ traceID :=
           (if b.length = 40 then b.drop 32 else List.replicate 8 0) ++
             (b.drop 16).take 8,
         spanID := b.take 8,
         traceOptions :=
           match parseFloat (h.get l5dHeaderSample) with
           | some rate =>
               if sample sampleSalt rate
                   (beUint64
                     ((if b.length = 40 then b.drop 32
                       else List.replicate 8 0) ++ (b.drop 16).take 8)) then 1
               else 0
           | none => 0 }, true) := by
  unfold SpanContextFromRequest
  rw [hdec]
  show (if b.length ≠ 32 ∧ b.length ≠ 40 then (zeroSpanContext, false)
        else _) = _
  rw [if_neg hcond]

/-- C8: a trace header decoding to exactly 32 bytes yields `ok = true` and a
trace id whose high 8 bytes are zero and whose low 8 bytes are wire bytes
[16:24]. -/
theorem spanContextFromRequest_zero_pads_short_trace_id (sampleSalt : ℕ)
    (h : Headers) (b : List ℕ)
    (hdec : base64Decode (h.get l5dHeaderTrace) = some b)
    (hlen : b.length = 32) :
    (SpanContextFromRequest sampleSalt h).2 = true ∧
    (SpanContextFromRequest sampleSalt h).1.traceID.take 8 =
      List.replicate 8 0 ∧
    (SpanContextFromRequest sampleSalt h).1.traceID.drop 8 =
      (b.drop 16).take 8 := by
  rw [spanContextFromRequest_eq sampleSalt h b hdec (by simp [hlen])]
  simp only [hlen]
  norm_num


/-- A 32-byte wire header holding bytes 0..31, base64 encoded. -/
def rangeWire : Headers :=
  fun k => if k = l5dHeaderTrace then base64Encode (List.range 32) else ""

/-- Like `rangeWire`, with an `l5d-sample` rate header of `-0.5`. -/
def sampledWire : Headers :=
  fun k =>
    if k = l5dHeaderTrace then base64Encode (List.range 32)
    else if k = l5dHeaderSample then "-0.5"
    else ""

/-- Witness for C8 on concrete bytes 0..31. -/
theorem spanContextFromRequest_zero_pads_short_trace_id_witness :
    base64Decode (rangeWire.get l5dHeaderTrace) = some (List.range 32) ∧
    (List.range 32 : List ℕ).length = 32 ∧
    ((SpanContextFromRequest 0 rangeWire).2 = true ∧
     (SpanContextFromRequest 0 rangeWire).1.traceID.take 8 =
       List.replicate 8 0 ∧
     (SpanContextFromRequest 0 rangeWire).1.traceID.drop 8 =
       ((List.range 32).drop 16).take 8) :=
  ⟨rfl, rfl,
   spanContextFromRequest_zero_pads_short_trace_id 0 rangeWire
     (List.range 32) rfl rfl⟩

/-- Concrete evaluation of the modelled float parser at `"-0.5"`. -/
theorem parseFloat_neg_half : parseFloat "-0.5" = some (-(1 / 2) : ℚ) := by
  show parseFloat "-0.5" = some (-(1 / 2) : ℚ)
  simp only [parseFloat]
  rw [show List.takeWhile Char.isDigit ['0', '.', '5'] = ['0'] from by decide]
  simp only [List.length_cons, List.length_nil, List.drop_succ_cons,
    List.drop_zero]
  norm_num
  refine ⟨by decide, ?_⟩
  norm_num [show ('0' : Char).toNat = 48 from rfl,
    show ('5' : Char).toNat = 53 from rfl]

/-- C3: whenever the trace header decodes to 32 or 40 bytes and the rate
header parses, the sampled flag is set to `sample(rate, n)` with `n` the
big-endian value of wire bytes [16:24] (the decoded trace id's low 64 bits).
The source actually passes `binary.BigEndian.Uint64(ctx.TraceID[:])` — the
high 8 bytes — but `sample` is independent of its trace-id argument, so the
stated property holds. -/
theorem spanContextFromRequest_sampled_flag (sampleSalt : ℕ) (h : Headers)
    (b : List ℕ) (rate : ℚ)
    (hdec : base64Decode (h.get l5dHeaderTrace) = some b)
    (hlen : b.length = 32 ∨ b.length = 40)
    (hrate : parseFloat (h.get l5dHeaderSample) = some rate) :
    (SpanContextFromRequest sampleSalt h).1.traceOptions =
      if sample sampleSalt rate (beUint64 ((b.drop 16).take 8)) then 1
      else 0 := by
  rw [spanContextFromRequest_eq sampleSalt h b hdec
      (by rcases hlen with h' | h' <;> simp [h'])]
  simp only [hrate]
  rw [sample_eq_decide, sample_eq_decide]

/-- Witness for C3 at a negative concrete rate (the only sign that samples in
this code). -/
theorem spanContextFromRequest_sampled_flag_witness :
    base64Decode (sampledWire.get l5dHeaderTrace) = some (List.range 32) ∧
    ((List.range 32 : List ℕ).length = 32 ∨
     (List.range 32 : List ℕ).length = 40) ∧
    parseFloat (sampledWire.get l5dHeaderSample) = some (-(1 / 2) : ℚ) ∧
    (SpanContextFromRequest 0 sampledWire).1.traceOptions =
      (if sample 0 (-(1 / 2) : ℚ)
          (beUint64 (((List.range 32).drop 16).take 8)) then 1 else 0) :=
  have hrate : parseFloat (sampledWire.get l5dHeaderSample) =
      some (-(1 / 2) : ℚ) := by
    rw [show sampledWire.get l5dHeaderSample = "-0.5" from rfl]
    exact parseFloat_neg_half
  ⟨rfl, Or.inl rfl, hrate,
   spanContextFromRequest_sampled_flag 0 sampledWire (List.range 32)
     (-(1 / 2) : ℚ) rfl (Or.inl rfl) hrate⟩

/-- C5: both decoders fail closed.  A trace header that fails base64 decoding
or decodes to a length outside {32,40} makes `SpanContextFromRequest` return
the zero context with `ok = false` and makes `FromL5D` leave the headers
untouched; and `ToL5D` returns with the headers untouched whenever any of the
three `X-B3-*` values fails hex decoding, or the decoded trace id length is
not 8 or 16, or the decoded span id length is not 8. -/
theorem codecs_fail_closed :
    (∀ sampleSalt h, base64Decode (Headers.get h l5dHeaderTrace) = none →
        SpanContextFromRequest sampleSalt h = (zeroSpanContext, false) ∧
        FromL5D h = h) ∧
    (∀ sampleSalt h b, base64Decode (Headers.get h l5dHeaderTrace) = some b →
        b.length ≠ 32 → b.length ≠ 40 →
        SpanContextFromRequest sampleSalt h = (zeroSpanContext, false) ∧
        FromL5D h = h) ∧
    (∀ h, (hexDecode (Headers.get h zipkinHeaderTraceID) = none ∨
           hexDecode (Headers.get h zipkinHeaderSpanID) = none ∨
           hexDecode (Headers.get h zipkinHeaderParentSpanID) = none) →
        ToL5D h = some h) ∧
    (∀ h t s p, hexDecode (Headers.get h zipkinHeaderTraceID) = some t →
        hexDecode (Headers.get h zipkinHeaderSpanID) = some s →
        hexDecode (Headers.get h zipkinHeaderParentSpanID) = some p →
        (¬(t.length = 8 ∨ t.length = 16) ∨ s.length ≠ 8) →
        ToL5D h = some h) := by
  refine ⟨?_, ?_, ?_, ?_⟩
  · intro sampleSalt h hdec
    constructor
    · unfold SpanContextFromRequest
      rw [hdec]
    · unfold FromL5D
      rw [hdec]
  · intro sampleSalt h b hdec h32 h40
    constructor
    · unfold SpanContextFromRequest
      rw [hdec]
      show (if b.length ≠ 32 ∧ b.length ≠ 40 then (zeroSpanContext, false)
            else _) = _
      rw [if_pos ⟨h32, h40⟩]
    · unfold FromL5D
      rw [hdec]
      show (if b.length ≠ 32 ∧ b.length ≠ 40 then h else _) = _
      rw [if_pos ⟨h32, h40⟩]
  · intro h hbad
    unfold ToL5D
    rcases hbad with hd | hd | hd
    · rw [hd]
    · cases ht : hexDecode (Headers.get h zipkinHeaderTraceID) with
      | none => rfl
      | some t => rw [hd]
    · cases ht : hexDecode (Headers.get h zipkinHeaderTraceID) with
      | none => rfl
      | some t =>
          cases hs : hexDecode (Headers.get h zipkinHeaderSpanID) with
          | none => rfl
          | some s => rw [hd]
  · intro h t s p hdt hds hdp hbad
    unfold ToL5D
    rw [hdt, hds, hdp]
    show (if ¬(t.length = 8 ∨ t.length = 16) ∨ s.length ≠ 8 then some h
          else _) = _
    rw [if_pos hbad]

/-- A header collection whose every value is an undecodable `"!"`. -/
def bangHeaders : Headers := fun _ => "!"

/-- Witness for C5: a header set of undecodable values and a header set of
absent (empty) values exercise the decode-failure and bad-length paths of
all three operations. -/
theorem codecs_fail_closed_witness :
    base64Decode (Headers.get bangHeaders l5dHeaderTrace) = none ∧
    (SpanContextFromRequest 0 bangHeaders = (zeroSpanContext, false) ∧
     FromL5D bangHeaders = bangHeaders) ∧
    base64Decode (Headers.get emptyHeaders l5dHeaderTrace) = some [] ∧
    (SpanContextFromRequest 0 emptyHeaders = (zeroSpanContext, false) ∧
     FromL5D emptyHeaders = emptyHeaders) ∧
    ToL5D bangHeaders = some bangHeaders ∧
    ToL5D emptyHeaders = some emptyHeaders :=
  ⟨rfl, codecs_fail_closed.1 0 bangHeaders rfl,
   rfl, codecs_fail_closed.2.1 0 emptyHeaders [] rfl (by decide) (by decide),
   codecs_fail_closed.2.2.1 bangHeaders (Or.inl rfl),
   codecs_fail_closed.2.2.2 emptyHeaders [] [] [] rfl rfl rfl
     (Or.inl (by decide))⟩



/-- When `ToL5D` returns (no panic), every header other than
`l5d-ctx-trace` is left as it was. -/
theorem toL5D_frame (h h' : Headers) (k : String) (hto : ToL5D h = some h')
    (hk : k ≠ l5dHeaderTrace) : Headers.get h' k = Headers.get h k := by
  unfold ToL5D at hto
  repeat' split at hto
  all_goals first
    | exact Option.noConfusion hto
    | (cases hto; rfl)
    | (cases hto; exact Headers.get_set_ne _ _ _ _ hk)

/-- C9: `FromL5D` writes no header besides `X-B3-TraceId`, `X-B3-SpanId` and
`X-B3-ParentSpanId` (in particular it never sets `X-B3-Sampled` or
`X-B3-Flags`), and `ToL5D`, whenever it returns, writes no header besides
`l5d-ctx-trace` (in particular it never sets `l5d-sample`). -/
theorem codecs_touch_only_their_headers :
    (∀ h k, k ≠ zipkinHeaderTraceID → k ≠ zipkinHeaderSpanID →
        k ≠ zipkinHeaderParentSpanID →
        Headers.get (FromL5D h) k = Headers.get h k) ∧
    (∀ h h' k, ToL5D h = some h' → k ≠ l5dHeaderTrace →
        Headers.get h' k = Headers.get h k) := by
  constructor
  · intro h k hk1 hk2 hk3
    unfold FromL5D
    cases hdec : base64Decode (Headers.get h l5dHeaderTrace) with
    | none => rfl
    | some b =>
        show Headers.get
          (if b.length ≠ 32 ∧ b.length ≠ 40 then h else _) k = Headers.get h k
        by_cases hc : b.length ≠ 32 ∧ b.length ≠ 40
        · rw [if_pos hc]
        · rw [if_neg hc]
          simp only []
          split
          · rw [Headers.get_set_ne _ _ _ _ hk3, Headers.get_set_ne _ _ _ _ hk2]
            split <;> rw [Headers.get_set_ne _ _ _ _ hk1]
          · rw [Headers.get_set_ne _ _ _ _ hk2]
            split <;> rw [Headers.get_set_ne _ _ _ _ hk1]
  · intro h h' k hto hk
    exact toL5D_frame h h' k hto hk

/-- Witness for C9 at the keys the spec singles out (`X-B3-Sampled`,
`X-B3-Flags`, `l5d-sample`) on a header set `ToL5D` accepts. -/
theorem codecs_touch_only_their_headers_witness :
    ("X-B3-Sampled" : String) ≠ zipkinHeaderTraceID ∧
    ("X-B3-Sampled" : String) ≠ zipkinHeaderSpanID ∧
    ("X-B3-Sampled" : String) ≠ zipkinHeaderParentSpanID ∧
    Headers.get (FromL5D sampledWire) "X-B3-Sampled" =
      Headers.get sampledWire "X-B3-Sampled" ∧
    ToL5D emptyHeaders = some emptyHeaders ∧
    ("l5d-sample" : String) ≠ l5dHeaderTrace ∧
    Headers.get emptyHeaders "l5d-sample" =
      Headers.get emptyHeaders "l5d-sample" :=
  ⟨by decide, by decide, by decide,
   codecs_touch_only_their_headers.1 sampledWire "X-B3-Sampled"
     (by decide) (by decide) (by decide),
   rfl, by decide,
   codecs_touch_only_their_headers.2 emptyHeaders emptyHeaders "l5d-sample"
     rfl (by decide)⟩

/-- C1's failing input: a header set with a 16-byte (128-bit) trace id and an
8-byte span id, both well-formed hex. -/
def export128Headers : Headers :=
  fun k =>
    if k = zipkinHeaderTraceID then "000102030405060708090a0b0c0d0e0f"
    else if k = zipkinHeaderSpanID then "0001020304050607"
    else ""

/-- C1: on a well-formed 16-byte trace id and 8-byte span id the claim says
`ToL5D` completes and writes the header; the source instead ranges over all
16 trace-id bytes starting at offset 32 of the 40-byte array, so the write at
offset 40 is out of range — a Go runtime panic, modelled as `none`. -/
theorem toL5D_panics_on_sixteen_byte_trace_id :
    ToL5D export128Headers = none := rfl

/-- The value `SpanContextToRequest` writes under `l5d-ctx-trace`. -/
theorem spanContextToRequest_get_trace (sc : SpanContext) (h : Headers) :
    Headers.get (SpanContextToRequest sc h) l5dHeaderTrace =
      base64Encode
        (padTo 8 sc.spanID ++ (List.replicate 8 0 ++
          (padTo 8 (sc.traceID.drop 8) ++
            (l5dTraceFlags ++ padTo 8 (sc.traceID.take 8))))) := by
  unfold SpanContextToRequest
  split
  · rw [Headers.get_set_ne _ _ _ _ (by decide), Headers.get_set_same]
    simp [List.append_assoc]
  · rw [Headers.get_set_same]
    simp [List.append_assoc]

/-- C4: encoding a well-formed span context (16-byte trace id, 8-byte span
id) into a request and decoding it back succeeds and returns the original
trace-id and span-id bytes (only the sampled flag may differ). -/
theorem encode_then_decode_preserves_ids (sampleSalt : ℕ) (sc : SpanContext)
    (h : Headers) (htl : sc.traceID.length = 16) (hsl : sc.spanID.length = 8)
    (htb : ∀ b ∈ sc.traceID, b < 256) (hsb : ∀ b ∈ sc.spanID, b < 256) :
    (SpanContextFromRequest sampleSalt (SpanContextToRequest sc h)).2 =
      true ∧
    (SpanContextFromRequest sampleSalt
        (SpanContextToRequest sc h)).1.traceID = sc.traceID ∧
    (SpanContextFromRequest sampleSalt
        (SpanContextToRequest sc h)).1.spanID = sc.spanID := by
  have hd8 : (sc.traceID.drop 8).length = 8 := by simp [htl]
  have ht8 : (sc.traceID.take 8).length = 8 := by simp [htl]
  set L : List ℕ := sc.spanID ++ (List.replicate 8 0 ++
    (sc.traceID.drop 8 ++ (l5dTraceFlags ++ sc.traceID.take 8))) with hL
  have hget : Headers.get (SpanContextToRequest sc h) l5dHeaderTrace =
      base64Encode L := by
    rw [spanContextToRequest_get_trace sc h, padTo_eq_of_length hsl,
      padTo_eq_of_length hd8, padTo_eq_of_length ht8]
  have hLb : ∀ b ∈ L, b < 256 := by
    intro b hb
    rw [hL] at hb
    simp only [List.mem_append] at hb
    rcases hb with hb | hb | hb | hb | hb
    · exact hsb b hb
    · rw [List.eq_of_mem_replicate hb]; omega
    · exact htb b (List.drop_subset _ _ hb)
    · exact (show ∀ x ∈ l5dTraceFlags, x < 256 from by decide) b hb
    · exact htb b (List.take_subset _ _ hb)
  have hLlen : L.length = 40 := by
    rw [hL]
    simp [List.length_append, hsl, hd8, ht8, l5dTraceFlags]
  have hdec : base64Decode
      (Headers.get (SpanContextToRequest sc h) l5dHeaderTrace) = some L := by
    rw [hget]
    exact base64Decode_base64Encode L hLb
  have e1 : L.drop 8 = List.replicate 8 0 ++
      (sc.traceID.drop 8 ++ (l5dTraceFlags ++ sc.traceID.take 8)) :=
    List.drop_left' hsl
  have e2 : L.drop 16 =
      sc.traceID.drop 8 ++ (l5dTraceFlags ++ sc.traceID.take 8) := by
    rw [show (16 : ℕ) = 8 + 8 from rfl, ← List.drop_drop, e1]
    exact List.drop_left' (by simp)
  have e3 : L.drop 24 = l5dTraceFlags ++ sc.traceID.take 8 := by
    rw [show (24 : ℕ) = 16 + 8 from rfl, ← List.drop_drop, e2]
    exact List.drop_left' hd8
  have e4 : L.drop 32 = sc.traceID.take 8 := by
    rw [show (32 : ℕ) = 24 + 8 from rfl, ← List.drop_drop, e3]
    exact List.drop_left' (by simp [l5dTraceFlags])
  rw [spanContextFromRequest_eq sampleSalt _ L hdec (by simp [hLlen])]
  simp only [hLlen]
  norm_num
  rw [e2, e4]
  refine ⟨?_, ?_⟩
  · rw [List.take_left' hd8, List.take_append_drop]
  · rw [hL]
    exact List.take_left' hsl


/-- A concrete well-formed span context for the round-trip witness. -/
def scRound : SpanContext :=
  { traceID := List.range 16, spanID := [10, 11, 12, 13, 14, 15, 16, 17],
    traceOptions := 1 }

/-- Witness for C4 at a concrete sampled span context. -/
theorem encode_then_decode_preserves_ids_witness :
    scRound.traceID.length = 16 ∧ scRound.spanID.length = 8 ∧
    (∀ b ∈ scRound.traceID, b < 256) ∧ (∀ b ∈ scRound.spanID, b < 256) ∧
    ((SpanContextFromRequest 0
        (SpanContextToRequest scRound emptyHeaders)).2 = true ∧
     (SpanContextFromRequest 0
        (SpanContextToRequest scRound emptyHeaders)).1.traceID =
       scRound.traceID ∧
     (SpanContextFromRequest 0
        (SpanContextToRequest scRound emptyHeaders)).1.spanID =
       scRound.spanID) :=
  ⟨rfl, rfl, by decide, by decide,
   encode_then_decode_preserves_ids 0 scRound emptyHeaders rfl rfl
     (by decide) (by decide)⟩

end Linkin
